import Mathlib

/-!
Verification of the retrieval-orchestration and caching layer of the ragu
repository: version-scoped collection lifecycle (src/embed.py,
src/get_vector_db.py), the file-based query cache (src/cache.py), multi-version
fan-out querying (src/multi_version_query.py), and usage statistics
(src/monitoring.py).  Pure functions of the source are translated directly;
the external Vector Store Engine (ChromaDB via langchain_chroma) is modelled
by the interface the specification fixes for it, and filesystem failures are
made explicit as boolean fault flags at the call sites where the source can
encounter them.
-/

namespace Ragu

/-- A document chunk as built in src/embed.py before writing: the split text
slice plus the metadata attached to it (source file, optional version). -/
structure Chunk where
  text : String
  sourceFile : String
  version : Option String
deriving DecidableEq, Repr

/-- Modelled from the spec: the Vector Store Engine catalog (spec section 6),
a map from physical collection name to the chunks the collection holds.
ChromaDB (langchain_chroma) is external to this repository; the spec fixes its
interface as openCollection giving a handle or NotFound, createCollection,
appendChunks and deleteCollection. -/
abbrev VectorStore := List (String × List Chunk)

/-- Modelled from the spec: openCollection, the lookup of a physical
collection by name; absence yields none (NotFound). -/
def lookupCollection : VectorStore → String → Option (List Chunk)
  | [], _ => none
  | (n, cs) :: rest, name => if n = name then some cs else lookupCollection rest name

/-- Remove a physical collection name from the catalog (no-op when absent). -/
def removeCollection (s : VectorStore) (name : String) : VectorStore :=
  s.filter (fun p => decide (p.1 ≠ name))

/-- Modelled from the spec: createCollection, after which the named collection
holds exactly the given chunks. -/
def createCollection (s : VectorStore) (name : String) (chunks : List Chunk) :
    VectorStore :=
  (name, chunks) :: removeCollection s name

/-- Modelled from the spec: appendChunks on an open collection handle
(add_documents in the source); the named collection keeps its chunks and the
new ones are appended. -/
def appendChunks : VectorStore → String → List Chunk → VectorStore
  | [], _, _ => []
  | (n, cs) :: rest, name, new =>
    (if n = name then (n, cs ++ new) else (n, cs)) :: appendChunks rest name new

/-- Modelled from the spec: deleteCollection; deleting an absent name is a
no-op, matching the ignored did-not-exist errors in the source. -/
def deleteCollection (s : VectorStore) (name : String) : VectorStore :=
  removeCollection s name

/-- Python truthiness of an optional string argument: None and the empty
string are both falsy.  src/embed.py and src/get_vector_db.py test
collection_name and version with a bare if. -/
def truthy : Option String → Option String
  | none => none
  | some s => if s = "" then none else some s

/-- Default collection base name: COLLECTION_NAME in src/embed.py and
src/get_vector_db.py (environment default common-model-docs). -/
def COLLECTION_NAME : String := "common-model-docs"

/-- Collection-name resolution as written in src/embed.py lines 57 to 61 and
src/get_vector_db.py lines 30 to 34: the defaulted base name, plus a -v
version suffix when a version is given. -/
def finalCollectionName (collectionName : Option String) (version : Option String) :
    String :=
  let base := (truthy collectionName).getD COLLECTION_NAME
  match truthy version with
  | some v => base ++ "-v" ++ v
  | none => base

/-- src/get_vector_db.py get_or_create_collection (lines 50 to 81): applies
the version suffix to the collection_name argument it receives, opens that
physical collection, and returns the opened handle (represented by its name)
together with an existence flag; an open failure and absence are conflated
into (none, false). -/
def get_or_create_collection (store : VectorStore) (collectionName : String)
    (version : Option String) : Option String × Bool :=
  let probed :=
    match truthy version with
    | some v => collectionName ++ "-v" ++ v
    | none => collectionName
  match lookupCollection store probed with
  | some _ => (some probed, true)
  | none => (none, false)

/-- src/embed.py embed_file, collection-handling section (lines 56 to 153).
Document loading and splitting are upstream of the collection logic, so the
chunk list is taken as given.  deleteOk and createOk say whether the engine
delete and create calls succeed: the delete failure is caught and ignored by
the source (lines 110 to 119), while a create failure propagates.  The result
is the store as persisted plus the handle of the written collection, or none
when the create call raised. -/
def embed_file (store : VectorStore) (chunks : List Chunk)
    (collectionName : Option String) (version : Option String)
    (overwrite : Bool) (deleteOk : Bool) (createOk : Bool) :
    VectorStore × Option String :=
  let final := finalCollectionName collectionName version
  if overwrite then
    let afterDelete := if deleteOk then deleteCollection store final else store
    if createOk then (createCollection afterDelete final chunks, some final)
    else (afterDelete, none)
  else
    match get_or_create_collection store final version with
    | (some handle, true) => (appendChunks store handle chunks, some handle)
    | _ =>
      if createOk then (createCollection store final chunks, some final)
      else (store, none)

/-- src/embed.py embed_confluence_page (lines 215 to 347): its collection
handling (lines 288 to 333) is a verbatim duplicate of the embed_file
collection handling, with the page chunks in place of the file chunks. -/
def embed_confluence_page (store : VectorStore) (chunks : List Chunk)
    (collectionName : Option String) (version : Option String)
    (overwrite : Bool) (deleteOk : Bool) (createOk : Bool) :
    VectorStore × Option String :=
  embed_file store chunks collectionName version overwrite deleteOk createOk

/-- src/embed.py embed_directory (lines 169 to 212): the per-file loop, one
chunk list per discovered file.  Every embed_file call passes overwrite=False
(comment in the source: always incremental for batch) and per-file failures
are caught and counted, so the store effect is this fold. -/
def embed_directory (store : VectorStore) (fileChunks : List (List Chunk))
    (collectionName : Option String) (version : Option String)
    (overwrite : Bool) : VectorStore :=
  fileChunks.foldl
    (fun s cs => (embed_file s cs collectionName version false true true).1) store

/-- src/embed.py embed_confluence_pages (lines 350 to 387): the per-page loop;
every embed_confluence_page call passes overwrite=False (comment in the
source: always incremental for batch) and per-page failures are caught and
counted. -/
def embed_confluence_pages (store : VectorStore) (pageChunks : List (List Chunk))
    (collectionName : Option String) (version : Option String)
    (overwrite : Bool) : VectorStore :=
  pageChunks.foldl
    (fun s cs => (embed_confluence_page s cs collectionName version false true true).1)
    store

/-! ### Cache Store (src/cache.py) -/

/-- Opaque query-result payload stored by the cache and returned by the query
layer; its structure is irrelevant to the cache contract. -/
abbrev QueryResult := String

/-- Python str.lower: per-character lowercasing, applied to the character
list of the string. -/
def pyLower (s : String) : String :=
  ⟨s.data.map Char.toLower⟩

/-- Python str.strip: remove leading and trailing whitespace characters. -/
def pyStrip (s : String) : String :=
  ⟨((s.data.dropWhile Char.isWhitespace).reverse.dropWhile Char.isWhitespace).reverse⟩

/-- Query normalization inside _get_cache_key (src/cache.py line 35):
query.lower().strip(). -/
def normalizeQuery (query : String) : String :=
  pyStrip (pyLower query)

/-- Cache key of src/cache.py _get_cache_key (lines 32 to 40): the source
takes the md5 hex digest of the canonical json.dumps (sort_keys=True) of the
normalized query, the version and k.  json.dumps is a canonical injective
encoding of this triple and md5 (hashlib, external to the repository) is a
deterministic hash assumed collision-free, so the key is represented by the
triple itself. -/
structure CacheKey where
  queryNorm : String
  version : Option String
  k : Nat
deriving DecidableEq, Repr

/-- The key computation of _get_cache_key. -/
def getCacheKey (query : String) (version : Option String) (k : Nat) : CacheKey :=
  ⟨normalizeQuery query, version, k⟩

/-- On-disk cache entry written by QueryCache.set (src/cache.py lines 100 to
106): fresh timestamp, the raw query, version, k and the result payload. -/
structure CacheEntry where
  timestamp : Int
  query : String
  version : Option String
  k : Nat
  result : QueryResult
deriving DecidableEq, Repr

/-- One file of the cache directory: its key names the file, its mtime is the
on-disk write time used by eviction, and it holds one entry. -/
structure CacheFile where
  key : CacheKey
  mtime : Int
  entry : CacheEntry
deriving DecidableEq, Repr

/-- State of a QueryCache instance (src/cache.py lines 23 to 30): the files
of the cache directory plus the configured ttl and max_size. -/
structure QueryCache where
  files : List CacheFile
  ttl : Int
  maxSize : Nat
deriving DecidableEq, Repr

/-- Unlink the file of one key from the cache directory. -/
def QueryCache.removeKey (c : QueryCache) (key : CacheKey) : QueryCache :=
  { c with files := c.files.filter (fun f => decide (f.key ≠ key)) }

/-- Look up the file of one key in the cache directory. -/
def QueryCache.findFile (c : QueryCache) (key : CacheKey) : Option CacheFile :=
  c.files.find? (fun f => decide (f.key = key))

/-- QueryCache.get (src/cache.py lines 46 to 81) on the fault-free path: a
missing file is absent; an entry with now - timestamp > ttl is unlinked and
reported absent; otherwise the stored result is returned. -/
def QueryCache.get (c : QueryCache) (now : Int) (query : String)
    (version : Option String) (k : Nat) : Option QueryResult × QueryCache :=
  match c.findFile (getCacheKey query version k) with
  | none => (none, c)
  | some f =>
    if now - f.entry.timestamp > c.ttl then
      (none, c.removeKey (getCacheKey query version k))
    else (some f.entry.result, c)

/-- The sort key of the eviction pass (src/cache.py line 124): ascending
on-disk modification time. -/
def byMtime (a b : CacheFile) : Prop :=
  a.mtime ≤ b.mtime

instance byMtimeDecidable : DecidableRel byMtime :=
  fun a b => inferInstanceAs (Decidable (a.mtime ≤ b.mtime))

/-- QueryCache._enforce_max_size (src/cache.py lines 116 to 133) on the
fault-free path: below max_size nothing happens; otherwise the files are
sorted by mtime ascending and the oldest count - max_size + 1 of them are
removed, making room for one more entry. -/
def QueryCache.enforceMaxSize (c : QueryCache) : QueryCache :=
  if c.files.length < c.maxSize then c
  else
    let sorted := List.insertionSort byMtime c.files
    { c with files := sorted.drop (c.files.length - c.maxSize + 1) }

/-- QueryCache.set (src/cache.py lines 83 to 114) on the fault-free path:
enforce max_size first, then write the entry under its key with a fresh
timestamp, replacing any previous file of that key. -/
def QueryCache.set (c : QueryCache) (now : Int) (query : String)
    (result : QueryResult) (version : Option String) (k : Nat) : QueryCache :=
  let key := getCacheKey query version k
  let c1 := c.enforceMaxSize
  let entry : CacheEntry := ⟨now, query, version, k, result⟩
  { c1 with files := ⟨key, now, entry⟩ :: c1.files.filter (fun f => decide (f.key ≠ key)) }

/-! ### Filesystem fault model for the Cache Store

Each flag names one filesystem call of src/cache.py that can raise, at the
exact program point where the source meets it; the fallible variants below
thread the fault through the same control flow of handlers the source has. -/

/-- Fault flags for one cache operation.  readFails: json.load or the read
open raises (JSONDecodeError, KeyError or IOError, cache.py line 65 to 66);
cleanupUnlinkFails: the unlink inside the except handler of get raises
(cache.py lines 79 to 80, itself unprotected); writeFails: the write open or
json.dump raises IOError (cache.py lines 108 to 109); evictStatFails: a
p.stat() call in the sort key of _enforce_max_size raises OSError (cache.py
line 124, outside every try block); evictUnlinkFails: an unlink during
eviction raises IOError (cache.py line 130, caught per file). -/
structure CacheFaults where
  readFails : Bool
  cleanupUnlinkFails : Bool
  writeFails : Bool
  evictStatFails : Bool
  evictUnlinkFails : Bool
deriving DecidableEq, Repr

/-- The all-clear fault assignment: every filesystem call succeeds. -/
def noFaults : CacheFaults := ⟨false, false, false, false, false⟩

/-- A raised Python exception, by name, as observed by the caller. -/
abbrev PyError := String

/-- QueryCache.get with fault injection (src/cache.py lines 46 to 81).  When
reading the found file fails, the except handler at line 77 swallows the
error, logs a warning and unlinks the corrupt entry; but that cleanup unlink
is itself unprotected, so its failure propagates.  The expiry unlink at line
71 sits inside the try block, so its failure is swallowed by the same handler. -/
def QueryCache.getF (c : QueryCache) (fs : CacheFaults) (now : Int)
    (query : String) (version : Option String) (k : Nat) :
    Except PyError (Option QueryResult × QueryCache) :=
  match c.findFile (getCacheKey query version k) with
  | none => .ok (none, c)
  | some f =>
    if fs.readFails then
      if fs.cleanupUnlinkFails then .error "IOError"
      else .ok (none, c.removeKey (getCacheKey query version k))
    else if now - f.entry.timestamp > c.ttl then
      .ok (none, c.removeKey (getCacheKey query version k))
    else .ok (some f.entry.result, c)

/-- QueryCache._enforce_max_size with fault injection (src/cache.py lines 116
to 133): the glob and the p.stat() calls of the sort key run outside every
try block, so a stat failure propagates; the per-file unlink is wrapped in
try/except IOError, so an unlink failure only leaves the old entries in
place. -/
def QueryCache.enforceMaxSizeF (c : QueryCache) (fs : CacheFaults) :
    Except PyError QueryCache :=
  if c.files.length < c.maxSize then .ok c
  else if fs.evictStatFails then .error "OSError"
  else if fs.evictUnlinkFails then .ok c
  else
    let sorted := List.insertionSort byMtime c.files
    .ok { c with files := sorted.drop (c.files.length - c.maxSize + 1) }

/-- QueryCache.set with fault injection (src/cache.py lines 83 to 114): the
_enforce_max_size call at line 97 precedes the try block, so an error raised
there propagates out of set; the write itself is wrapped in try/except
IOError, so a write failure is swallowed and the cache is simply left without
the new entry. -/
def QueryCache.setF (c : QueryCache) (fs : CacheFaults) (now : Int)
    (query : String) (result : QueryResult) (version : Option String)
    (k : Nat) : Except PyError QueryCache :=
  match c.enforceMaxSizeF fs with
  | .error e => .error e
  | .ok c1 =>
    if fs.writeFails then .ok c1
    else
      .ok { c1 with
            files := ⟨getCacheKey query version k, now, ⟨now, query, version, k, result⟩⟩ ::
              c1.files.filter (fun f => decide (f.key ≠ getCacheKey query version k)) }

/-! ### Usage Log (src/monitoring.py) -/

/-- One record of the append-only query log, as written by
QueryMonitor.log_query (src/monitoring.py lines 48 to 55).  response_time and
cached are read back with Python truthiness, so a zero response time counts
as absent. -/
structure QueryRecord where
  timestamp : Int
  query : String
  responseTime : Option ℚ
  sourceCount : Nat
  cached : Bool
deriving DecidableEq, Repr

/-- QueryMonitor.log_query (src/monitoring.py lines 32 to 61): appends one
record; the whole body is wrapped in try/except Exception, so an append
failure leaves the log unchanged and never raises. -/
def logQueryF (enabled : Bool) (appendFails : Bool) (log : List QueryRecord)
    (rec : QueryRecord) : List QueryRecord :=
  if !enabled then log
  else if appendFails then log
  else log ++ [rec]

/-! ### Retrieval Orchestrator cache and telemetry interactions
(src/query.py query_docs) -/

/-- The cache and telemetry skeleton of query_docs (src/query.py lines 61 to
220) with use_cache enabled and the external retrieval and generation calls
succeeding with the given answer.  The cache.get call at line 99 runs outside
the try block, so an error it raises propagates; the cache.set call at line
201 runs inside the try block whose except clause at lines 218 to 220
re-raises, so its error propagates too; both log_query calls swallow their
own failures.  The outcome is an error, or the answer together with the
resulting cache and log. -/
def query_docs (c : QueryCache) (log : List QueryRecord) (fs : CacheFaults)
    (logAppendFails : Bool) (now : Int) (question : String)
    (version : Option String) (k : Nat) (externalAnswer : QueryResult) :
    Except PyError (QueryResult × QueryCache × List QueryRecord) :=
  if pyStrip question = "" then .error "ValueError"
  else
    match c.getF fs now question version k with
    | .error e => .error e
    | .ok (some r, c1) =>
      .ok (r, c1, logQueryF true logAppendFails log ⟨now, question, none, 0, true⟩)
    | .ok (none, c1) =>
      match c1.setF fs now question externalAnswer version k with
      | .error e => .error e
      | .ok c2 =>
        .ok (externalAnswer, c2,
             logQueryF true logAppendFails log ⟨now, question, none, 0, false⟩)

/-- The telemetry tail of embed_file (src/embed.py lines 154 to 164): the
log_embedding call catches every exception itself (src/monitoring.py lines
150 to 168), so the embedding outcome is whatever the collection handling
produced, regardless of the telemetry fault. -/
def embed_file_logged (store : VectorStore) (chunks : List Chunk)
    (collectionName : Option String) (version : Option String)
    (overwrite : Bool) (logAppendFails : Bool) :
    (VectorStore × Option String) × Bool :=
  let out := embed_file store chunks collectionName version overwrite true true
  (out, !logAppendFails)

/-! ### Multi-version queries (src/multi_version_query.py) -/

/-- Python string comparison: lexicographic by code point, which is the
lexicographic order on the character list of the string. -/
def pyStrLe (a b : String) : Prop :=
  a.data ≤ b.data

instance pyStrLeDecidable : DecidableRel pyStrLe :=
  fun a b => inferInstanceAs (Decidable (a.data ≤ b.data))

instance pyStrLeTotal : IsTotal String pyStrLe :=
  ⟨fun a b => le_total a.data b.data⟩

instance pyStrLeTrans : IsTrans String pyStrLe :=
  ⟨fun _ _ _ h1 h2 => le_trans h1 h2⟩

instance pyStrLeAntisymm : IsAntisymm String pyStrLe :=
  ⟨fun a b h1 h2 => by
    cases a with
    | mk da =>
      cases b with
      | mk db => exact congrArg String.mk (le_antisymm h1 h2)⟩

/-- Python sorted() on the version strings (lexicographic, stable), as used
at src/multi_version_query.py line 50. -/
def sortedVersions (versions : List String) : List String :=
  List.insertionSort pyStrLe versions

/-- The composite cache key string built by query_multiple_versions at
src/multi_version_query.py line 50: the question, an underscore, and the
comma-joined sorted version list. -/
def multiVersionCacheVersion (question : String) (versions : List String) : String :=
  question ++ "_" ++ String.intercalate "," (sortedVersions versions)

/-- The cache key under which query_multiple_versions looks up and stores its
result (src/multi_version_query.py lines 50 to 52 and 178): the composite
string is passed as the version argument of the cache. -/
def queryEnsembleCacheKey (question : String) (versions : List String)
    (k : Nat) : CacheKey :=
  getCacheKey question (some (multiVersionCacheVersion question versions)) k

/-- One value of the results_by_version mapping built by compare_versions
(src/multi_version_query.py lines 224 to 240): a successful version carries
its answer and source count, a failed one carries the error string with the
answer set to None and no source count. -/
structure ComparisonEntry where
  answer : Option String
  error : Option PyError
  sourceCount : Option Nat
deriving DecidableEq, Repr

/-- compare_versions (src/multi_version_query.py lines 195 to 246).  The
per-version single-version query is the external collaborator here, supplied
as queryOutcome (answer and source count, or the raised error).  The
results_by_version dict is represented as the list of per-version pairs in
loop order.  An empty question and a short version list are rejected up
front; afterwards each version is queried independently, a failure being
recorded in its own entry. -/
def compare_versions (question : String) (versions : List String)
    (queryOutcome : String → Except PyError (String × Nat)) :
    Except PyError (List (String × ComparisonEntry)) :=
  if pyStrip question = "" then .error "ValueError: Question cannot be empty"
  else if versions.length < 2 then
    .error "ValueError: At least 2 versions required for comparison"
  else
    .ok (versions.map (fun v =>
      match queryOutcome v with
      | .ok (ans, n) => (v, ⟨some ans, none, some n⟩)
      | .error e => (v, ⟨none, some e, none⟩)))

/-! ### Usage statistics (src/monitoring.py get_query_stats) -/

/-- One line of the queries.jsonl log as seen by get_query_stats: either a
record that json.loads and the key lookups accept, or a malformed line
skipped by the inner except clause (src/monitoring.py lines 104 to 105). -/
inductive LogLine
  | malformed
  | record (r : QueryRecord)
deriving DecidableEq, Repr

/-- The dict returned by get_query_stats (src/monitoring.py lines 114 to
121); period_days, an echo of the argument, is omitted. -/
structure QueryStats where
  totalQueries : Nat
  uniqueQueries : Nat
  avgResponseTime : ℚ
  cacheHitRate : ℚ
  topQueries : List (String × Nat)
deriving DecidableEq, Repr

/-- The zeroed default struct returned for a missing log file
(src/monitoring.py lines 73 to 80). -/
def zeroQueryStats : QueryStats := ⟨0, 0, 0, 0, []⟩

/-- Python round(x, digits) on the rationals arising here.  Mathlib round
breaks halves upward while Python breaks them to even, but no half-way value
occurs in any statement below, and both agree everywhere else. -/
def roundTo (digits : Nat) (x : ℚ) : ℚ :=
  (round (x * 10 ^ digits) : ℚ) / 10 ^ digits

/-- Count occurrences keeping first-seen order, the behavior of the
defaultdict at src/monitoring.py line 98 (dict preserves insertion order). -/
def bumpCount (counts : List (String × Nat)) (q : String) : List (String × Nat) :=
  if counts.any (fun p => decide (p.1 = q)) then
    counts.map (fun p => if p.1 = q then (p.1, p.2 + 1) else p)
  else counts ++ [(q, 1)]

/-- The window filter of get_query_stats (src/monitoring.py lines 83 to 103):
malformed lines are skipped and a record counts exactly when its timestamp is
at least now - days * 86400. -/
def inWindowRecords (lines : List LogLine) (now : Int) (days : Nat) :
    List QueryRecord :=
  let cutoff : Int := now - (days : Int) * 86400
  lines.filterMap (fun l =>
    match l with
    | .malformed => none
    | .record r => if cutoff ≤ r.timestamp then some r else none)

/-- QueryMonitor.get_query_stats (src/monitoring.py lines 63 to 125): none
stands for a missing log file and yields the zeroed defaults; otherwise the
in-window records produce the counts, the average response time over records
whose response_time is present and nonzero (Python truthiness), the cache hit
rate as a percentage, and the ten most frequent lowercased queries.  The
function is total: the source's outer except clause never fires on the
modelled paths. -/
def get_query_stats (log : Option (List LogLine)) (now : Int) (days : Nat) :
    QueryStats :=
  match log with
  | none => zeroQueryStats
  | some lines =>
    let recs := inWindowRecords lines now days
    let totalCount := recs.length
    let cachedCount := (recs.filter (fun r => r.cached)).length
    let responseTimes := recs.filterMap (fun r =>
      match r.responseTime with
      | some t => if t = 0 then none else some t
      | none => none)
    let queryCounts := recs.foldl (fun acc r => bumpCount acc (r.query.toLower)) []
    let avg : ℚ :=
      if responseTimes.length = 0 then 0 else responseTimes.sum / responseTimes.length
    let hitRate : ℚ :=
      if totalCount = 0 then 0 else (cachedCount : ℚ) / (totalCount : ℚ) * 100
    ⟨totalCount, queryCounts.length, roundTo 3 avg, roundTo 2 hitRate,
     (List.insertionSort (fun a b => b.2 < a.2) queryCounts).take 10⟩

/-! ### Sequences of cache writes (for the eviction contract) -/

/-- Arguments of one QueryCache.set call: the wall-clock time of the call and
the set parameters. -/
structure SetOp where
  now : Int
  query : String
  result : QueryResult
  version : Option String
  k : Nat
deriving DecidableEq, Repr

/-- The cache key a set call writes under. -/
def opKey (o : SetOp) : CacheKey :=
  getCacheKey o.query o.version o.k

/-- The cache file a set call leaves on disk. -/
def opFile (o : SetOp) : CacheFile :=
  ⟨opKey o, o.now, ⟨o.now, o.query, o.version, o.k, o.result⟩⟩

/-- A sequence of set calls, performed left to right. -/
def setAll (c : QueryCache) (ops : List SetOp) : QueryCache :=
  ops.foldl (fun acc o => acc.set o.now o.query o.result o.version o.k) c

/-! ## Helper lemmas about the Vector Store catalog -/

theorem lookup_create_self (s : VectorStore) (name : String) (cs : List Chunk) :
    lookupCollection (createCollection s name cs) name = some cs := by
  simp [createCollection, lookupCollection]

theorem lookup_remove_ne (s : VectorStore) (name other : String) (h : other ≠ name) :
    lookupCollection (removeCollection s name) other = lookupCollection s other := by
  induction s with
  | nil => rfl
  | cons p rest ih =>
    obtain ⟨n, cs⟩ := p
    by_cases hn : n = name
    · subst hn
      simp [removeCollection, List.filter_cons, lookupCollection, Ne.symm h] at *
      exact ih
    · by_cases ho : n = other
      · subst ho
        simp [removeCollection, List.filter_cons, hn, lookupCollection]
      · simp [removeCollection, List.filter_cons, hn, lookupCollection, ho] at *
        exact ih

theorem lookup_create_ne (s : VectorStore) (name other : String) (cs : List Chunk)
    (h : other ≠ name) :
    lookupCollection (createCollection s name cs) other = lookupCollection s other := by
  simp only [createCollection, lookupCollection, Ne.symm h, if_false]
  exact lookup_remove_ne s name other h

theorem lookup_appendChunks (s : VectorStore) (n : String) (cs : List Chunk)
    (name : String) :
    lookupCollection (appendChunks s n cs) name =
      (lookupCollection s name).map (fun l => if n = name then l ++ cs else l) := by
  induction s with
  | nil => rfl
  | cons p rest ih =>
    obtain ⟨pn, pcs⟩ := p
    simp only [appendChunks]
    by_cases hn : pn = n
    · subst hn
      rw [if_pos rfl]
      by_cases ho : pn = name
      · subst ho
        simp [lookupCollection]
      · simp only [lookupCollection, if_neg ho]
        simp [ih, ho]
    · rw [if_neg hn]
      by_cases ho : pn = name
      · subst ho
        simp [lookupCollection, if_neg (Ne.symm hn)]
      · simp only [lookupCollection, if_neg ho]
        simp [ih, ho]

theorem embed_incremental_preserves (s : VectorStore) (cs : List Chunk)
    (cn v : Option String) (name : String)
    (h : (lookupCollection s name).isSome = true) :
    (lookupCollection (embed_file s cs cn v false true true).1 name).isSome = true := by
  unfold embed_file
  simp only [if_false, Bool.false_eq_true]
  rcases hg : get_or_create_collection s (finalCollectionName cn v) v with ⟨o, b⟩
  rcases o with _ | handle
  · rcases b with _ | _
    · by_cases hn : name = finalCollectionName cn v
      · subst hn
        simp [lookup_create_self]
      · simpa [lookup_create_ne _ _ _ _ hn] using h
    · by_cases hn : name = finalCollectionName cn v
      · subst hn
        simp [lookup_create_self]
      · simpa [lookup_create_ne _ _ _ _ hn] using h
  · rcases b with _ | _
    · by_cases hn : name = finalCollectionName cn v
      · subst hn
        simp [lookup_create_self]
      · simpa [lookup_create_ne _ _ _ _ hn] using h
    · simpa [lookup_appendChunks] using h

theorem batch_fold_preserves (fcs : List (List Chunk)) (s : VectorStore)
    (cn v : Option String) (name : String)
    (h : (lookupCollection s name).isSome = true) :
    (lookupCollection
      (fcs.foldl (fun acc cs => (embed_file acc cs cn v false true true).1) s)
      name).isSome = true := by
  induction fcs generalizing s with
  | nil => exact h
  | cons cs rest ih =>
    exact ih _ (embed_incremental_preserves s cs cn v name h)

theorem lookup_remove_self (s : VectorStore) (name : String) :
    lookupCollection (removeCollection s name) name = none := by
  induction s with
  | nil => rfl
  | cons p rest ih =>
    obtain ⟨pn, pcs⟩ := p
    by_cases hn : pn = name
    · simpa [removeCollection, List.filter_cons, hn] using ih
    · simpa [removeCollection, List.filter_cons, hn, lookupCollection] using ih

/-! ## Claim theorems -/

/-- C1 (evaluation at the failing input): with version 2.0 and base name docs,
the first incremental embed creates docs-v2.0 with the one given chunk, but
the existence probe of the second incremental embed asks
get_or_create_collection about the doubly suffixed name docs-v2.0-v2.0, finds
nothing, and re-creates docs-v2.0 from the new chunks alone: one entry
remains where the claim demands the cumulative two. -/
theorem c1_versioned_incremental_recreates :
    let chunk1 : Chunk := ⟨"alpha", "a.md", some "2.0"⟩
    let chunk2 : Chunk := ⟨"beta", "b.md", some "2.0"⟩
    let s1 := (embed_file [] [chunk1] (some "docs") (some "2.0") false true true).1
    let s2 := (embed_file s1 [chunk2] (some "docs") (some "2.0") false true true).1
    lookupCollection s1 "docs-v2.0" = some [chunk1] ∧
    get_or_create_collection s1 "docs-v2.0" (some "2.0") = (none, false) ∧
    lookupCollection s1 "docs-v2.0-v2.0" = none ∧
    lookupCollection s2 "docs-v2.0" = some [chunk2] ∧
    ((lookupCollection s2 "docs-v2.0").getD []).length = 1 := by
  decide

/-- C2: an overwrite write deletes the physical collection first (a delete
failure or absence is ignored) and only then creates it fresh, so the
resulting collection holds exactly the new chunks; and the delete is not
transactional with the create: when the create fails after the delete,
embed_file raises (returns no handle) and the old chunks are already gone. -/
theorem c2_overwrite_destructive_before_constructive (store : VectorStore)
    (chunks : List Chunk) (cn v : Option String) :
    (∀ deleteOk,
      lookupCollection (embed_file store chunks cn v true deleteOk true).1
        (finalCollectionName cn v) = some chunks) ∧
    (embed_file store chunks cn v true true false).2 = none ∧
    lookupCollection (embed_file store chunks cn v true true false).1
      (finalCollectionName cn v) = none ∧
    (embed_file store chunks cn v true true false).1 =
      deleteCollection store (finalCollectionName cn v) := by
  refine ⟨?_, rfl, ?_, rfl⟩
  · intro deleteOk
    have h : (embed_file store chunks cn v true deleteOk true).1 =
        createCollection
          (if deleteOk then deleteCollection store (finalCollectionName cn v) else store)
          (finalCollectionName cn v) chunks := rfl
    rw [h]
    exact lookup_create_self _ _ _
  · have h : (embed_file store chunks cn v true true false).1 =
        deleteCollection store (finalCollectionName cn v) := rfl
    rw [h]
    exact lookup_remove_self _ _

/-- C10: the batch entry points embed_directory and embed_confluence_pages
pass overwrite=False to every per-item embed regardless of their own
overwrite argument, so the batch result ignores that argument and an existing
collection is never deleted by a batch call. -/
theorem c10_batch_ignores_overwrite (store : VectorStore)
    (fileChunks pageChunks : List (List Chunk)) (cn v : Option String)
    (o1 o2 : Bool) :
    embed_directory store fileChunks cn v o1 =
      embed_directory store fileChunks cn v o2 ∧
    embed_confluence_pages store pageChunks cn v o1 =
      embed_confluence_pages store pageChunks cn v o2 ∧
    (∀ name, (lookupCollection store name).isSome = true →
      (lookupCollection (embed_directory store fileChunks cn v o1) name).isSome = true) ∧
    (∀ name, (lookupCollection store name).isSome = true →
      (lookupCollection (embed_confluence_pages store pageChunks cn v o1) name).isSome =
        true) := by
  refine ⟨rfl, rfl, ?_, ?_⟩
  · intro name h
    exact batch_fold_preserves fileChunks store cn v name h
  · intro name h
    exact batch_fold_preserves pageChunks store cn v name h

/-- C10 witness: a store holding collection docs keeps it through a batch
embed called with overwrite=true. -/
theorem c10_batch_ignores_overwrite_witness :
    (lookupCollection [("docs", [])] "docs").isSome = true ∧
    (lookupCollection
      (embed_directory [("docs", [])] [[⟨"t", "f.md", none⟩]] none (some "1.0") true)
      "docs").isSome = true :=
  ⟨by decide,
   (c10_batch_ignores_overwrite [("docs", [])] [[⟨"t", "f.md", none⟩]] []
      none (some "1.0") true false).2.2.1 "docs" (by decide)⟩

theorem sortedVersions_perm_eq {vs vs' : List String} (h : vs.Perm vs') :
    sortedVersions vs = sortedVersions vs' :=
  List.eq_of_perm_of_sorted
    ((List.perm_insertionSort pyStrLe vs).trans
      (h.trans (List.perm_insertionSort pyStrLe vs').symm))
    (List.sorted_insertionSort pyStrLe vs)
    (List.sorted_insertionSort pyStrLe vs')

/-- C7: the composite multi-version cache key sorts the version list, so two
ensemble queries over permuted version lists compute the same cache key and
therefore perform identical cache lookups, hitting the same cache entry. -/
theorem c7_ensemble_cache_key_perm_invariant (question : String) (k : Nat)
    (vs vs' : List String) (h : vs.Perm vs') :
    queryEnsembleCacheKey question vs k = queryEnsembleCacheKey question vs' k ∧
    ∀ (c : QueryCache) (now : Int),
      c.get now question (some (multiVersionCacheVersion question vs)) k =
        c.get now question (some (multiVersionCacheVersion question vs')) k := by
  have hv : multiVersionCacheVersion question vs = multiVersionCacheVersion question vs' := by
    unfold multiVersionCacheVersion
    rw [sortedVersions_perm_eq h]
  constructor
  · unfold queryEnsembleCacheKey
    rw [hv]
  · intro c now
    rw [hv]

/-- C7 witness: the version lists 2.0,1.0 and 1.0,2.0 are permutations of
each other and give the same ensemble cache key. -/
theorem c7_ensemble_cache_key_perm_invariant_witness :
    List.Perm ["2.0", "1.0"] ["1.0", "2.0"] ∧
    queryEnsembleCacheKey "q" ["2.0", "1.0"] 3 =
      queryEnsembleCacheKey "q" ["1.0", "2.0"] 3 :=
  ⟨by decide,
   (c7_ensemble_cache_key_perm_invariant "q" 3 ["2.0", "1.0"] ["1.0", "2.0"]
      (by decide)).1⟩

/-- C8: compare_versions rejects a version list with fewer than two entries
with an InvalidInput error; with at least two versions it returns one entry
per version in order, where a version whose query raised carries the error
string and a null answer while a version whose query succeeded carries its
answer, so one failure never aborts the comparison. -/
theorem c8_compare_versions_isolation (question : String) (versions : List String)
    (queryOutcome : String → Except PyError (String × Nat))
    (hq : pyStrip question ≠ "") :
    (versions.length < 2 →
      compare_versions question versions queryOutcome =
        .error "ValueError: At least 2 versions required for comparison") ∧
    (2 ≤ versions.length →
      ∃ L, compare_versions question versions queryOutcome = .ok L ∧
        L.map Prod.fst = versions ∧
        ∀ p ∈ L,
          (∀ e, queryOutcome p.1 = .error e →
            p.2 = ⟨none, some e, none⟩) ∧
          (∀ a n, queryOutcome p.1 = .ok (a, n) →
            p.2 = ⟨some a, none, some n⟩)) := by
  constructor
  · intro hlen
    unfold compare_versions
    rw [if_neg hq, if_pos hlen]
  · intro hlen
    refine ⟨versions.map (fun v =>
      match queryOutcome v with
      | .ok (ans, n) => (v, ⟨some ans, none, some n⟩)
      | .error e => (v, ⟨none, some e, none⟩)), ?_, ?_, ?_⟩
    · unfold compare_versions
      rw [if_neg hq, if_neg (by omega)]
    · rw [List.map_map]
      have : ∀ ver ∈ versions,
          (Prod.fst ∘ fun v =>
            match queryOutcome v with
            | .ok (ans, n) => (v, (⟨some ans, none, some n⟩ : ComparisonEntry))
            | .error e => (v, ⟨none, some e, none⟩)) ver = id ver := by
        intro ver _
        rcases hov : queryOutcome ver with e | ⟨a, n⟩ <;> simp [hov]
      rw [List.map_congr_left this, List.map_id]
    · intro p hp
      rw [List.mem_map] at hp
      obtain ⟨ver, _, hver⟩ := hp
      constructor
      · intro e he
        rcases hov : queryOutcome ver with e' | ⟨a, n⟩
        · rw [hov] at hver
          simp only at hver
          subst hver
          simp only [hov] at he
          simp at he
          subst he
          rfl
        · rw [hov] at hver
          simp only at hver
          subst hver
          simp [hov] at he
      · intro a n hok
        rcases hov : queryOutcome ver with e' | ⟨a', n'⟩
        · rw [hov] at hver
          simp only at hver
          subst hver
          simp [hov] at hok
        · rw [hov] at hver
          simp only at hver
          subst hver
          simp [hov] at hok
          obtain ⟨rfl, rfl⟩ := hok
          rfl

/-- C8 witness: comparing versions 1.0 and 2.0 where the query for 2.0 raises
yields an entry with the error recorded for 2.0 and the answer populated for
1.0. -/
theorem c8_compare_versions_isolation_witness :
    pyStrip "q" ≠ "" ∧ 2 ≤ (["1.0", "2.0"] : List String).length ∧
    ∃ L, compare_versions "q" ["1.0", "2.0"]
        (fun v => if v = "2.0" then .error "boom" else .ok ("answer one", 3)) = .ok L ∧
      L.map Prod.fst = ["1.0", "2.0"] ∧
      ∀ p ∈ L,
        (∀ e, (if p.1 = "2.0" then (.error "boom" : Except PyError (String × Nat))
            else .ok ("answer one", 3)) = .error e →
          p.2 = ⟨none, some e, none⟩) ∧
        (∀ a n, (if p.1 = "2.0" then (.error "boom" : Except PyError (String × Nat))
            else .ok ("answer one", 3)) = .ok (a, n) →
          p.2 = ⟨some a, none, some n⟩) :=
  ⟨by decide, by decide,
   (c8_compare_versions_isolation "q" ["1.0", "2.0"]
      (fun v => if v = "2.0" then .error "boom" else .ok ("answer one", 3))
      (by decide)).2 (by decide)⟩

/-! ## Helper lemmas about the Cache Store -/

theorem enforceMaxSize_ttl (c : QueryCache) : c.enforceMaxSize.ttl = c.ttl := by
  unfold QueryCache.enforceMaxSize
  split <;> rfl

theorem enforceMaxSize_maxSize (c : QueryCache) :
    c.enforceMaxSize.maxSize = c.maxSize := by
  unfold QueryCache.enforceMaxSize
  split <;> rfl

theorem set_files_eq (c : QueryCache) (now : Int) (q : String) (r : QueryResult)
    (v : Option String) (k : Nat) :
    (c.set now q r v k).files =
      ⟨getCacheKey q v k, now, ⟨now, q, v, k, r⟩⟩ ::
        c.enforceMaxSize.files.filter (fun f => decide (f.key ≠ getCacheKey q v k)) :=
  rfl

theorem set_ttl (c : QueryCache) (now : Int) (q : String) (r : QueryResult)
    (v : Option String) (k : Nat) : (c.set now q r v k).ttl = c.ttl := by
  rw [show (c.set now q r v k).ttl = c.enforceMaxSize.ttl from rfl, enforceMaxSize_ttl]

theorem set_maxSize (c : QueryCache) (now : Int) (q : String) (r : QueryResult)
    (v : Option String) (k : Nat) : (c.set now q r v k).maxSize = c.maxSize := by
  rw [show (c.set now q r v k).maxSize = c.enforceMaxSize.maxSize from rfl,
    enforceMaxSize_maxSize]

theorem enforceMaxSize_of_lt (c : QueryCache) (h : c.files.length < c.maxSize) :
    c.enforceMaxSize = c := by
  unfold QueryCache.enforceMaxSize
  rw [if_pos h]

theorem enforceMaxSize_mem (c : QueryCache) (f : CacheFile)
    (hf : f ∈ c.enforceMaxSize.files) : f ∈ c.files := by
  by_cases h : c.files.length < c.maxSize
  · rwa [enforceMaxSize_of_lt c h] at hf
  · unfold QueryCache.enforceMaxSize at hf
    rw [if_neg h] at hf
    exact (List.perm_insertionSort byMtime c.files).mem_iff.mp
      (List.drop_subset _ _ hf)

/-- C4: for queries equal after lowercasing and stripping, a set followed by
a get of the same version and k (within ttl) returns the stored result; a get
of a key never written returns absent; and the key is sensitive to version
and k, so a get with a different version or a different k misses. -/
theorem c4_cache_key_semantics (c : QueryCache) (now now2 : Int) (q q2 : String)
    (r : QueryResult) (v : Option String) (k : Nat)
    (hnorm : normalizeQuery q = normalizeQuery q2)
    (httl : now2 - now ≤ c.ttl) :
    ((c.set now q r v k).get now2 q2 v k).1 = some r ∧
    (∀ (q3 : String) (v3 : Option String) (k3 : Nat),
      (∀ f ∈ c.files, f.key ≠ getCacheKey q3 v3 k3) → (c.get now q3 v3 k3).1 = none) ∧
    (∀ (v2 : Option String) (k2 : Nat), v2 ≠ v ∨ k2 ≠ k →
      (∀ f ∈ c.files, f.key ≠ getCacheKey q2 v2 k2) →
      ((c.set now q r v k).get now2 q2 v2 k2).1 = none) := by
  have hkey : getCacheKey q2 v k = getCacheKey q v k := by
    unfold getCacheKey
    rw [hnorm]
  refine ⟨?_, ?_, ?_⟩
  · have hf : (c.set now q r v k).findFile (getCacheKey q2 v k) =
        some ⟨getCacheKey q v k, now, ⟨now, q, v, k, r⟩⟩ := by
      unfold QueryCache.findFile
      rw [set_files_eq, hkey]
      exact List.find?_cons_of_pos _ (by simp)
    unfold QueryCache.get
    rw [hf]
    simp only [set_ttl]
    rw [if_neg (not_lt.mpr httl)]
  · intro q3 v3 k3 habs
    have hf : c.findFile (getCacheKey q3 v3 k3) = none := by
      unfold QueryCache.findFile
      rw [List.find?_eq_none]
      intro f hf
      simpa using habs f hf
    unfold QueryCache.get
    rw [hf]
  · intro v2 k2 hvk habs
    have hne : (⟨getCacheKey q v k, now, ⟨now, q, v, k, r⟩⟩ : CacheFile).key ≠
        getCacheKey q2 v2 k2 := by
      intro hEq
      simp only [getCacheKey] at hEq
      injection hEq with h1 h2 h3
      rcases hvk with h | h
      · exact h h2.symm
      · exact h h3.symm
    have hfind : (c.set now q r v k).findFile (getCacheKey q2 v2 k2) = none := by
      unfold QueryCache.findFile
      rw [set_files_eq, List.find?_eq_none]
      intro f hf
      rcases List.mem_cons.mp hf with rfl | hf2
      · simpa using hne
      · have hf3 := List.mem_of_mem_filter hf2
        simpa using habs f (enforceMaxSize_mem c f hf3)
    unfold QueryCache.get
    rw [hfind]

/-- C4 witness: the spec example: set under the query foo, get under the
query with different case and trailing space hits; a never-written key
misses; a different version or k misses. -/
theorem c4_cache_key_semantics_witness :
    normalizeQuery "foo" = normalizeQuery "Foo " ∧ ((1 : Int) - 0 ≤ 100) ∧
    (((⟨[], 100, 10⟩ : QueryCache).set 0 "foo" "result" (some "1.0") 3).get 1
      "Foo " (some "1.0") 3).1 = some "result" :=
  ⟨by decide, by decide,
   (c4_cache_key_semantics ⟨[], 100, 10⟩ 0 1 "foo" "Foo " "result" (some "1.0") 3
      (by decide) (by decide)).1⟩

/-- C6: a get whose entry satisfies now - timestamp > ttl reports absent and
unlinks the entry; expiry is checked only lazily at get time: a get of any
other key removes at most that key, and a set below capacity never removes an
expired entry of a different key, so TTL alone never purges an unread entry. -/
theorem c6_ttl_lazy_expiry (c : QueryCache) (now : Int) (q : String)
    (v : Option String) (k : Nat) (f : CacheFile)
    (hfind : c.findFile (getCacheKey q v k) = some f)
    (hexp : now - f.entry.timestamp > c.ttl) :
    (c.get now q v k).1 = none ∧
    (c.get now q v k).2 = c.removeKey (getCacheKey q v k) ∧
    (∀ (now2 : Int) (q2 : String) (v2 : Option String) (k2 : Nat),
      (c.get now2 q2 v2 k2).2 = c ∨
      (c.get now2 q2 v2 k2).2 = c.removeKey (getCacheKey q2 v2 k2)) ∧
    (∀ (now2 : Int) (q2 : String) (r2 : QueryResult) (v2 : Option String) (k2 : Nat),
      c.files.length < c.maxSize → getCacheKey q2 v2 k2 ≠ f.key →
      f ∈ (c.set now2 q2 r2 v2 k2).files) := by
  refine ⟨?_, ?_, ?_, ?_⟩
  · unfold QueryCache.get
    rw [hfind]
    simp only
    rw [if_pos hexp]
  · unfold QueryCache.get
    rw [hfind]
    simp only
    rw [if_pos hexp]
  · intro now2 q2 v2 k2
    unfold QueryCache.get
    cases hf2 : c.findFile (getCacheKey q2 v2 k2) with
    | none => exact Or.inl rfl
    | some g =>
      simp only
      by_cases hgt : now2 - g.entry.timestamp > c.ttl
      · rw [if_pos hgt]
        exact Or.inr rfl
      · rw [if_neg hgt]
        exact Or.inl rfl
  · intro now2 q2 r2 v2 k2 hlen hne
    have hmem : f ∈ c.files :=
      List.mem_of_find?_eq_some hfind
    rw [set_files_eq, enforceMaxSize_of_lt c hlen]
    exact List.mem_cons_of_mem _
      (List.mem_filter.mpr ⟨hmem, decide_eq_true (fun h => hne h.symm)⟩)

/-- C6 witness: an entry written at time 0 with ttl 10 read at time 11 is
reported absent and unlinked. -/
theorem c6_ttl_lazy_expiry_witness :
    (QueryCache.findFile ⟨[⟨getCacheKey "q" none 3, 0, ⟨0, "q", none, 3, "r"⟩⟩], 10, 5⟩
        (getCacheKey "q" none 3) =
      some ⟨getCacheKey "q" none 3, 0, ⟨0, "q", none, 3, "r"⟩⟩) ∧
    ((11 : Int) - 0 > 10) ∧
    ((⟨[⟨getCacheKey "q" none 3, 0, ⟨0, "q", none, 3, "r"⟩⟩], 10, 5⟩ : QueryCache).get
      11 "q" none 3).1 = none :=
  ⟨by decide, by decide,
   (c6_ttl_lazy_expiry ⟨[⟨getCacheKey "q" none 3, 0, ⟨0, "q", none, 3, "r"⟩⟩], 10, 5⟩
      11 "q" none 3 ⟨getCacheKey "q" none 3, 0, ⟨0, "q", none, 3, "r"⟩⟩
      (by decide) (by decide)).1⟩

/-- C9: get_query_stats on a missing log (none) or an empty log returns the
zeroed default struct and, being a total function, never raises; and on any
log whose in-window records number five with exactly two cached, it reports
five total queries and a cache hit rate of 40 percent, counting only records
with timestamp at least now - days * 86400 and discarding malformed lines. -/
theorem c9_query_stats (now : Int) (days : Nat) :
    get_query_stats none now days = zeroQueryStats ∧
    get_query_stats (some []) now days = zeroQueryStats ∧
    ∀ lines : List LogLine,
      (inWindowRecords lines now days).length = 5 →
      ((inWindowRecords lines now days).filter (fun r => r.cached)).length = 2 →
      (get_query_stats (some lines) now days).totalQueries = 5 ∧
      (get_query_stats (some lines) now days).cacheHitRate = 40 := by
  refine ⟨rfl, ?_, ?_⟩
  · unfold get_query_stats
    simp [inWindowRecords, zeroQueryStats, roundTo]
  · intro lines h5 h2
    constructor
    · show (inWindowRecords lines now days).length = 5
      exact h5
    · show roundTo 2
        (if (inWindowRecords lines now days).length = 0 then 0
          else ((((inWindowRecords lines now days).filter (fun r => r.cached)).length : ℚ) /
            ((inWindowRecords lines now days).length : ℚ) * 100)) = 40
      rw [h5, h2]
      norm_num [roundTo]

/-- C9 witness: a log with a malformed line, an out-of-window record and five
in-window records of which two are cached yields total 5 and hit rate 40. -/
theorem c9_query_stats_witness :
    let lines : List LogLine :=
      [.record ⟨0, "a", none, 1, true⟩, .record ⟨0, "b", none, 1, true⟩,
       .record ⟨0, "c", none, 1, false⟩, .record ⟨0, "d", none, 1, false⟩,
       .malformed, .record ⟨-604801, "x", none, 1, true⟩,
       .record ⟨0, "e", none, 1, false⟩]
    (inWindowRecords lines 0 7).length = 5 ∧
    ((inWindowRecords lines 0 7).filter (fun r => r.cached)).length = 2 ∧
    (get_query_stats (some lines) 0 7).totalQueries = 5 ∧
    (get_query_stats (some lines) 0 7).cacheHitRate = 40 := by
  intro lines
  exact ⟨by decide, by decide,
    ((c9_query_stats 0 7).2.2 lines (by decide) (by decide)).1,
    ((c9_query_stats 0 7).2.2 lines (by decide) (by decide)).2⟩

/-! ## Fault containment lemmas for the Cache Store -/

theorem enforceMaxSizeF_ok (c : QueryCache) (fs : CacheFaults)
    (h1 : fs.evictStatFails = false) :
    ∃ c1, c.enforceMaxSizeF fs = .ok c1 := by
  unfold QueryCache.enforceMaxSizeF
  by_cases hlen : c.files.length < c.maxSize
  · rw [if_pos hlen]
    exact ⟨_, rfl⟩
  · rw [if_neg hlen, h1, if_neg Bool.false_ne_true]
    by_cases hu : fs.evictUnlinkFails = true
    · rw [if_pos hu]
      exact ⟨_, rfl⟩
    · rw [if_neg hu]
      exact ⟨_, rfl⟩

theorem setF_ok (c : QueryCache) (fs : CacheFaults) (now : Int) (q : String)
    (r : QueryResult) (v : Option String) (k : Nat)
    (h1 : fs.evictStatFails = false) :
    ∃ c2, c.setF fs now q r v k = .ok c2 := by
  unfold QueryCache.setF
  obtain ⟨c1, hc1⟩ := enforceMaxSizeF_ok c fs h1
  rw [hc1]
  simp only
  by_cases hw : fs.writeFails = true
  · rw [if_pos hw]
    exact ⟨_, rfl⟩
  · rw [if_neg hw]
    exact ⟨_, rfl⟩

theorem getF_ok (c : QueryCache) (fs : CacheFaults) (now : Int) (q : String)
    (v : Option String) (k : Nat) (h2 : fs.cleanupUnlinkFails = false) :
    ∃ res, c.getF fs now q v k = .ok res := by
  unfold QueryCache.getF
  cases hff : c.findFile (getCacheKey q v k) with
  | none => exact ⟨_, rfl⟩
  | some f =>
    simp only
    by_cases hr : fs.readFails = true
    · rw [if_pos hr, h2, if_neg Bool.false_ne_true]
      exact ⟨_, rfl⟩
    · rw [if_neg hr]
      by_cases hexp : now - f.entry.timestamp > c.ttl
      · rw [if_pos hexp]
        exact ⟨_, rfl⟩
      · rw [if_neg hexp]
        exact ⟨_, rfl⟩

/-- C3 counterexample: with the cache directory at capacity, a filesystem
error raised by the stat call of the eviction pass (src/cache.py line 124)
inside cache.set is not caught: query_docs raises it to its caller, so a
cache error does propagate out of a query operation. -/
theorem c3_eviction_fault_escapes :
    query_docs ⟨[⟨getCacheKey "old" none 3, 0, ⟨0, "old", none, 3, "r0"⟩⟩], 100, 1⟩ []
      ⟨false, false, false, true, false⟩ false 5 "q" none 3 "answer" =
      .error "OSError" := by
  rfl

/-- C3 (amended): errors raised while reading or parsing a cache entry,
writing a cache entry, unlinking during eviction, or appending a telemetry
record are caught locally, and query_docs then returns its normal result;
embed_file telemetry failures never alter the embedding outcome.  The
exceptions, forced by the counterexample, are a stat failure in the eviction
pass of set and an unlink failure inside the corrupt-entry cleanup handler of
get, which do propagate. -/
theorem c3_cache_telemetry_fault_containment (c : QueryCache)
    (log : List QueryRecord) (fs : CacheFaults) (logAF : Bool) (now : Int)
    (question : String) (version : Option String) (k : Nat) (ans : QueryResult)
    (h1 : fs.evictStatFails = false) (h2 : fs.cleanupUnlinkFails = false)
    (h3 : pyStrip question ≠ "") :
    (∃ out, query_docs c log fs logAF now question version k ans = .ok out) ∧
    (∀ (store : VectorStore) (chunks : List Chunk) (cn v : Option String)
      (ow lf : Bool),
      (embed_file_logged store chunks cn v ow lf).1 =
        embed_file store chunks cn v ow true true) := by
  refine ⟨?_, fun _ _ _ _ _ _ => rfl⟩
  unfold query_docs
  rw [if_neg h3]
  obtain ⟨⟨o, c1⟩, hres⟩ := getF_ok c fs now question version k h2
  rw [hres]
  cases o with
  | some rr => exact ⟨_, rfl⟩
  | none =>
    obtain ⟨c2, hc2⟩ := setF_ok c1 fs now question ans version k h1
    simp only
    rw [hc2]
    exact ⟨_, rfl⟩

/-- C3 witness: with no filesystem faults a query over an empty cache returns
normally. -/
theorem c3_cache_telemetry_fault_containment_witness :
    noFaults.evictStatFails = false ∧ noFaults.cleanupUnlinkFails = false ∧
    pyStrip "q" ≠ "" ∧
    ∃ out, query_docs ⟨[], 100, 10⟩ [] noFaults false 0 "q" none 3 "answer" =
      .ok out :=
  ⟨rfl, rfl, by decide,
   (c3_cache_telemetry_fault_containment ⟨[], 100, 10⟩ [] noFaults false 0 "q"
      none 3 "answer" rfl rfl (by decide)).1⟩

/-! ## Eviction order lemmas -/

theorem set_below_capacity (c : QueryCache) (o : SetOp)
    (hlen : c.files.length < c.maxSize)
    (hfresh : ∀ f ∈ c.files, f.key ≠ opKey o) :
    (c.set o.now o.query o.result o.version o.k).files = opFile o :: c.files := by
  have hfresh2 : ∀ f ∈ c.files, f.key ≠ getCacheKey o.query o.version o.k := hfresh
  rw [set_files_eq, enforceMaxSize_of_lt c hlen,
    List.filter_eq_self.mpr (fun f hf => decide_eq_true (hfresh2 f hf))]
  rfl

theorem setAll_no_evict : ∀ (ops : List SetOp) (c : QueryCache),
    ops.length + c.files.length ≤ c.maxSize →
    (∀ o ∈ ops, ∀ f ∈ c.files, f.key ≠ opKey o) →
    (ops.map opKey).Nodup →
    (setAll c ops).files = (ops.map opFile).reverse ++ c.files ∧
    (setAll c ops).ttl = c.ttl ∧ (setAll c ops).maxSize = c.maxSize := by
  intro ops
  induction ops with
  | nil =>
    intro c _ _ _
    exact ⟨by simp [setAll], rfl, rfl⟩
  | cons o rest ih =>
    intro c hlen hfresh hnd
    have hlt : c.files.length < c.maxSize := by
      simp only [List.length_cons] at hlen
      omega
    have hset := set_below_capacity c o hlt (fun f hf => hfresh o (by simp) f hf)
    have hstep : setAll c (o :: rest) =
        setAll (c.set o.now o.query o.result o.version o.k) rest := rfl
    have hnd' : (rest.map opKey).Nodup := (List.nodup_cons.mp (by simpa using hnd)).2
    have hko : opKey o ∉ rest.map opKey := (List.nodup_cons.mp (by simpa using hnd)).1
    have ihh := ih (c.set o.now o.query o.result o.version o.k) ?hl ?hf hnd'
    · rw [hstep]
      refine ⟨?_, ?_, ?_⟩
      · rw [ihh.1, hset]
        simp [List.append_assoc]
      · rw [ihh.2.1, set_ttl]
      · rw [ihh.2.2, set_maxSize]
    · rw [hset, set_maxSize]
      simp only [List.length_cons] at hlen ⊢
      omega
    · intro o2 ho2 f hf
      rw [hset] at hf
      rcases List.mem_cons.mp hf with rfl | hf2
      · show opKey o ≠ opKey o2
        intro hEq
        exact hko (hEq ▸ List.mem_map_of_mem opKey ho2)
      · exact hfresh o2 (List.mem_cons_of_mem o ho2) f hf2

theorem orderedInsert_eq_append (a : CacheFile) :
    ∀ l : List CacheFile, (∀ b ∈ l, ¬ byMtime a b) →
    List.orderedInsert byMtime a l = l ++ [a] := by
  intro l
  induction l with
  | nil => intro _; rfl
  | cons b rest ih =>
    intro h
    simp only [List.orderedInsert]
    rw [if_neg (h b (by simp)), ih (fun x hx => h x (by simp [hx]))]
    rfl

theorem insertionSort_of_descending :
    ∀ l : List CacheFile, l.Pairwise (fun a b => b.mtime < a.mtime) →
    List.insertionSort byMtime l = l.reverse := by
  intro l
  induction l with
  | nil => intro _; rfl
  | cons x xs ih =>
    intro h
    rw [List.pairwise_cons] at h
    obtain ⟨hx, hxs⟩ := h
    simp only [List.insertionSort]
    rw [ih hxs, orderedInsert_eq_append x xs.reverse
      (fun b hb => not_le.mpr (hx b (List.mem_reverse.mp hb)))]
    simp

theorem set_at_capacity (c : QueryCache) (o : SetOp) (asc : List CacheFile)
    (hfiles : c.files = asc.reverse)
    (hlen : asc.length = c.maxSize)
    (hdesc : asc.Pairwise (fun a b => a.mtime < b.mtime))
    (hfresh : ∀ f ∈ asc, f.key ≠ opKey o) :
    (c.set o.now o.query o.result o.version o.k).files = opFile o :: asc.drop 1 := by
  have hsort : List.insertionSort byMtime c.files = asc := by
    rw [hfiles, insertionSort_of_descending asc.reverse
      (List.pairwise_reverse.mpr hdesc), List.reverse_reverse]
  have hnotlt : ¬ c.files.length < c.maxSize := by
    rw [hfiles, List.length_reverse, hlen]
    omega
  have henf : c.enforceMaxSize = { c with files := asc.drop 1 } := by
    unfold QueryCache.enforceMaxSize
    rw [if_neg hnotlt, hsort, hfiles, List.length_reverse, hlen, Nat.sub_self]
  have hfresh2 : ∀ f ∈ asc.drop 1, f.key ≠ getCacheKey o.query o.version o.k :=
    fun f hf => hfresh f (List.drop_subset 1 asc hf)
  rw [set_files_eq, henf]
  simp only
  rw [List.filter_eq_self.mpr (fun f hf => decide_eq_true (hfresh2 f hf))]
  rfl

/-- C5: starting from an empty cache with max_size equal to mid.length + 1,
performing max_size + 1 set calls with pairwise distinct keys at strictly
increasing times leaves exactly max_size live entries: the single entry
evicted is the first-written (oldest by on-disk write time, FIFO), and every
later write survives. -/
theorem c5_eviction_fifo (ttl : Int) (first last : SetOp) (mid : List SetOp)
    (hkeys : (((first :: mid) ++ [last]).map opKey).Nodup)
    (htimes : ((first :: mid) ++ [last]).Pairwise (fun a b => a.now < b.now)) :
    (setAll ⟨[], ttl, mid.length + 1⟩ ((first :: mid) ++ [last])).files =
      opFile last :: mid.map opFile ∧
    (setAll ⟨[], ttl, mid.length + 1⟩ ((first :: mid) ++ [last])).files.length =
      mid.length + 1 ∧
    ∀ f ∈ (setAll ⟨[], ttl, mid.length + 1⟩ ((first :: mid) ++ [last])).files,
      f.key ≠ opKey first := by
  have hnd1 : ((first :: mid).map opKey).Nodup := by
    rw [List.map_append] at hkeys
    exact hkeys.of_append_left
  have hdisj : ((first :: mid).map opKey).Disjoint ([last].map opKey) := by
    rw [List.map_append] at hkeys
    exact (List.nodup_append.mp hkeys).2.2
  obtain ⟨hfiles1, httl1, hmax1⟩ :=
    setAll_no_evict (first :: mid) ⟨[], ttl, mid.length + 1⟩
      (by simp) (by intro o _ f hf; simp at hf) hnd1
  have htimes1 : (first :: mid).Pairwise (fun a b => a.now < b.now) :=
    htimes.sublist (List.sublist_append_left _ _)
  have hdesc : ((first :: mid).map opFile).Pairwise (fun a b => a.mtime < b.mtime) :=
    List.pairwise_map.mpr htimes1
  have hfresh2 : ∀ f ∈ (first :: mid).map opFile, f.key ≠ opKey last := by
    intro f hf
    rw [List.mem_map] at hf
    obtain ⟨o, ho, rfl⟩ := hf
    show opKey o ≠ opKey last
    intro hEq
    exact hdisj (List.mem_map_of_mem opKey ho) (by simp [hEq])
  have hstep : setAll ⟨[], ttl, mid.length + 1⟩ ((first :: mid) ++ [last]) =
      (setAll ⟨[], ttl, mid.length + 1⟩ (first :: mid)).set last.now last.query
        last.result last.version last.k := by
    unfold setAll
    rw [List.foldl_append]
    rfl
  have hfinal : (setAll ⟨[], ttl, mid.length + 1⟩ ((first :: mid) ++ [last])).files =
      opFile last :: mid.map opFile := by
    rw [hstep]
    have := set_at_capacity (setAll ⟨[], ttl, mid.length + 1⟩ (first :: mid)) last
      ((first :: mid).map opFile)
      (by rw [hfiles1]; simp)
      (by rw [hmax1]; simp)
      hdesc hfresh2
    rw [this]
    simp
  refine ⟨hfinal, by rw [hfinal]; simp, ?_⟩
  intro f hf
  rw [hfinal] at hf
  have hfirstnm : opKey first ∉ (mid ++ [last]).map opKey := by
    have : ((first :: (mid ++ [last])).map opKey).Nodup := by
      simpa using hkeys
    exact (List.nodup_cons.mp (by simpa using this)).1
  rcases List.mem_cons.mp hf with rfl | hf2
  · show opKey last ≠ opKey first
    intro hEq
    exact hfirstnm (by rw [List.map_append, ← hEq]; simp)
  · rw [List.mem_map] at hf2
    obtain ⟨o, ho, rfl⟩ := hf2
    show opKey o ≠ opKey first
    intro hEq
    have hmem : opKey o ∈ List.map opKey mid ++ List.map opKey [last] :=
      List.mem_append_left _ (List.mem_map_of_mem opKey ho)
    rw [hEq] at hmem
    rw [List.map_append] at hfirstnm
    exact hfirstnm hmem

/-- C5 witness: with max_size 2, three writes with distinct keys at times 0,
1, 2 leave the two newest entries; the first-written entry is evicted. -/
theorem c5_eviction_fifo_witness :
    ((([⟨0, "a", "ra", none, 3⟩, ⟨1, "b", "rb", none, 3⟩,
        ⟨2, "c", "rc", none, 3⟩] : List SetOp).map opKey).Nodup ∧
      ([⟨0, "a", "ra", none, 3⟩, ⟨1, "b", "rb", none, 3⟩,
        ⟨2, "c", "rc", none, 3⟩] : List SetOp).Pairwise (fun a b => a.now < b.now)) ∧
    (setAll ⟨[], 100, 2⟩
      [⟨0, "a", "ra", none, 3⟩, ⟨1, "b", "rb", none, 3⟩, ⟨2, "c", "rc", none, 3⟩]).files =
      opFile ⟨2, "c", "rc", none, 3⟩ :: [⟨1, "b", "rb", none, 3⟩].map opFile :=
  ⟨⟨by decide, by decide⟩,
   (c5_eviction_fifo 100 ⟨0, "a", "ra", none, 3⟩ ⟨2, "c", "rc", none, 3⟩
      [⟨1, "b", "rb", none, 3⟩] (by decide) (by decide)).1⟩

end Ragu
